import Mathlib

/-!
Verification development for `convert_config.py`, a one-shot converter from a
Pi-hole teleporter backup archive to an AdGuard-style report.  The Python
source is embedded shallowly: pure list/string processing becomes Lean
functions, file access and the HTTP probe become explicit parameters
(`JsonFile`, a probe oracle), and Python exceptions become `Except` values.
-/

namespace PiholeConvert

/-- JSON values as produced by Python's `json` module, restricted to the shapes
relevant here (numbers are modeled as integers; the `enabled` flags in the
source data are booleans or the integers 0/1). -/
inductive JVal where
  | null
  | bool (b : Bool)
  | int (n : Int)
  | str (s : String)
  deriving DecidableEq, Repr

/-- Python truthiness (`if e["enabled"]` in `read_adlist`): `None`, `False`,
`0` and `""` are falsy, everything else is truthy. -/
def pyTruthy : JVal → Bool
  | .null => false
  | .bool b => b
  | .int n => n != 0
  | .str s => s != ""

/-- Python's `v == 1` (the filter in the four domain-list readers).  Python
identifies `True` with `1` and `False` with `0`; strings and `None` never
equal `1`. -/
def pyEqOne : JVal → Bool
  | .bool b => b
  | .int n => n == 1
  | .null => false
  | .str _ => false

/-- An adlist record after projection: the `address` and `comment` fields kept
by `read_adlist`. -/
structure AdlistEntry where
  address : String
  comment : String
  deriving DecidableEq, Repr

/-- A domain-list record after projection: the `domain` and `comment` fields
kept by the four domain-list readers. -/
structure DomainEntry where
  domain : String
  comment : String
  deriving DecidableEq, Repr

/-- A fully parsed adlist record (all expected keys present). -/
structure RawAdlistRecord where
  address : String
  comment : String
  enabled : JVal
  deriving DecidableEq, Repr

/-- A fully parsed domain-list record (all expected keys present). -/
structure RawDomainRecord where
  domain : String
  comment : String
  enabled : JVal
  deriving DecidableEq, Repr

/-- List-comprehension body of `read_adlist`:
`[{"address": e["address"], "comment": e["comment"]} for e in adlist if e["enabled"]]`. -/
def read_adlist : List RawAdlistRecord → List AdlistEntry
  | [] => []
  | e :: rest =>
    if pyTruthy e.enabled then
      { address := e.address, comment := e.comment } :: read_adlist rest
    else
      read_adlist rest

/-- Shared list-comprehension body of the four domain-list readers:
`[{"domain": e["domain"], "comment": e["comment"]} for e in lst if e["enabled"] == 1]`.
The four Python functions differ only in the file they open. -/
def read_domainlist : List RawDomainRecord → List DomainEntry
  | [] => []
  | e :: rest =>
    if pyEqOne e.enabled then
      { domain := e.domain, comment := e.comment } :: read_domainlist rest
    else
      read_domainlist rest

/-- Model of `read_whitelist_exact`, record-processing part (file: `whitelist.exact.json`). -/
def read_whitelist_exact : List RawDomainRecord → List DomainEntry := read_domainlist

/-- Model of `read_blacklist_exact`, record-processing part (file: `blacklist.exact.json`). -/
def read_blacklist_exact : List RawDomainRecord → List DomainEntry := read_domainlist

/-- Model of `read_whitelist_regex`, record-processing part (file: `whitelist.regex.json`). -/
def read_whitelist_regex : List RawDomainRecord → List DomainEntry := read_domainlist

/-- Model of `read_blacklist_regex`, record-processing part (file: `blacklist.regex.json`). -/
def read_blacklist_regex : List RawDomainRecord → List DomainEntry := read_domainlist

/-- Python `url.replace("\\/", "/")` on the character list: scan left to
right, replacing each non-overlapping occurrence of the two characters
backslash, slash by a single slash. -/
def replaceBsSlash : List Char → List Char
  | [] => []
  | [c] => [c]
  | c :: d :: rest =>
    if c = '\\' ∧ d = '/' then '/' :: replaceBsSlash rest
    else c :: replaceBsSlash (d :: rest)

/-- The URL normalization used in `test_url` and at print time in `main`:
`url.replace("\\/", "/")`. -/
def normalizeUrl (s : String) : String := String.mk (replaceBsSlash s.data)

/-- Outcome of one `requests.head` call, supplied by the environment. -/
inductive ProbeOutcome where
  | status (code : Nat)
  | netError
  deriving DecidableEq, Repr

/-- Model of `test_url`: normalize the URL, probe it, and report success exactly when
the status code is 200; any raised `RequestException` yields `False`. -/
def test_url (probe : String → ProbeOutcome) (url : String) : Bool :=
  match probe (normalizeUrl url) with
  | .status code => code == 200
  | .netError => false

/-- Model of `filter_working_adlist`: `[e for e in adlist if test_url(e["address"])]`. -/
def filter_working_adlist (probe : String → ProbeOutcome) :
    List AdlistEntry → List AdlistEntry
  | [] => []
  | e :: rest =>
    if test_url probe e.address then e :: filter_working_adlist probe rest
    else filter_working_adlist probe rest

/-- The f-string `f"# {entry['comment']}\n@@|{entry['domain']}^\n"`. -/
def wlExactRule (e : DomainEntry) : String :=
  "# " ++ e.comment ++ "\n@@|" ++ e.domain ++ "^\n"

/-- The f-string `f"# {entry['comment']}\n@@/{entry['domain']}/\n"`. -/
def wlRegexRule (e : DomainEntry) : String :=
  "# " ++ e.comment ++ "\n@@/" ++ e.domain ++ "/\n"

/-- The f-string `f"# {entry['comment']}\n|{entry['domain']}^\n"`. -/
def blExactRule (e : DomainEntry) : String :=
  "# " ++ e.comment ++ "\n|" ++ e.domain ++ "^\n"

/-- The f-string `f"# {entry['comment']}\n/{entry['domain']}/\n"`. -/
def blRegexRule (e : DomainEntry) : String :=
  "# " ++ e.comment ++ "\n/" ++ e.domain ++ "/\n"

/-- Model of `build_custom_filtering_rules`: start from the empty string and append the
whitelist header, one rule pair per whitelist-exact then whitelist-regex
entry, the `"\n\n"` separator, the blacklist header, and one rule pair per
blacklist-exact then blacklist-regex entry. -/
def build_custom_filtering_rules
    (whitelist_exact blacklist_exact whitelist_regex blacklist_regex :
      List DomainEntry) : String :=
  let textblock := ""
  let textblock := textblock ++ "! Whitelist\n"
  let textblock := whitelist_exact.foldl (fun acc e => acc ++ wlExactRule e) textblock
  let textblock := whitelist_regex.foldl (fun acc e => acc ++ wlRegexRule e) textblock
  let textblock := textblock ++ "\n\n"
  let textblock := textblock ++ "! Blacklist\n"
  let textblock := blacklist_exact.foldl (fun acc e => acc ++ blExactRule e) textblock
  let textblock := blacklist_regex.foldl (fun acc e => acc ++ blRegexRule e) textblock
  textblock

/-- Concatenation of a list of strings, used to state the rule-block shape. -/
def sconcat : List String → String
  | [] => ""
  | s :: rest => s ++ sconcat rest

/-- The §4.4 block exactly as claim C1 reads it: whitelist header, whitelist
rule pairs, a SINGLE blank line, blacklist header, blacklist rule pairs. -/
def rulesBlockSingleBlank
    (whitelist_exact blacklist_exact whitelist_regex blacklist_regex :
      List DomainEntry) : String :=
  "! Whitelist\n" ++ sconcat (whitelist_exact.map wlExactRule)
    ++ sconcat (whitelist_regex.map wlRegexRule)
    ++ "\n"
    ++ "! Blacklist\n" ++ sconcat (blacklist_exact.map blExactRule)
    ++ sconcat (blacklist_regex.map blRegexRule)

/-- The §4.4 block with the separator the code actually emits: two blank
lines (`"\n\n"` appended after a newline-terminated section). -/
def rulesBlockTwoBlank
    (whitelist_exact blacklist_exact whitelist_regex blacklist_regex :
      List DomainEntry) : String :=
  "! Whitelist\n" ++ sconcat (whitelist_exact.map wlExactRule)
    ++ sconcat (whitelist_regex.map wlRegexRule)
    ++ "\n\n"
    ++ "! Blacklist\n" ++ sconcat (blacklist_exact.map blExactRule)
    ++ sconcat (blacklist_regex.map blRegexRule)

/-- An adlist record as a partial map: a key the JSON object lacks is `none`. -/
structure RawAdlistJson where
  address : Option String
  comment : Option String
  enabled : Option JVal
  deriving DecidableEq, Repr

/-- A domain-list record as a partial map. -/
structure RawDomainJson where
  domain : Option String
  comment : Option String
  enabled : Option JVal
  deriving DecidableEq, Repr

/-- Failure modes of the readers: `KeyError` from `e[key]` on a record,
`FileNotFoundError` from `open`, `json.JSONDecodeError` from `json.load`. -/
inductive ReadError where
  | keyError (key : String)
  | missingFile (name : String)
  | parseError (name : String)
  deriving DecidableEq, Repr

/-- Python `e[key]`: the value when present, `KeyError` otherwise. -/
def getKey {α : Type} (v : Option α) (key : String) : Except ReadError α :=
  match v with
  | some x => .ok x
  | none => .error (.keyError key)

/-- Fallible `read_adlist` on records that may lack keys, with Python's
evaluation order: the comprehension evaluates `e["enabled"]` for every
record, and `e["address"]` then `e["comment"]` only for records passing the
filter; the first raised `KeyError` aborts the whole read. -/
def read_adlistE : List RawAdlistJson → Except ReadError (List AdlistEntry)
  | [] => .ok []
  | e :: rest =>
    match getKey e.enabled "enabled" with
    | .error err => .error err
    | .ok en =>
      if pyTruthy en then
        match getKey e.address "address" with
        | .error err => .error err
        | .ok a =>
          match getKey e.comment "comment" with
          | .error err => .error err
          | .ok c =>
            match read_adlistE rest with
            | .error err => .error err
            | .ok tail => .ok ({ address := a, comment := c } :: tail)
      else
        read_adlistE rest

/-- Shared fallible body of the four domain-list readers on records that may
lack keys, with the same evaluation order as `read_adlistE`. -/
def read_domainlistE : List RawDomainJson → Except ReadError (List DomainEntry)
  | [] => .ok []
  | e :: rest =>
    match getKey e.enabled "enabled" with
    | .error err => .error err
    | .ok en =>
      if pyEqOne en then
        match getKey e.domain "domain" with
        | .error err => .error err
        | .ok d =>
          match getKey e.comment "comment" with
          | .error err => .error err
          | .ok c =>
            match read_domainlistE rest with
            | .error err => .error err
            | .ok tail => .ok ({ domain := d, comment := c } :: tail)
      else
        read_domainlistE rest

/-- Model of `read_whitelist_exact` on possibly-incomplete records. -/
def read_whitelist_exactE : List RawDomainJson → Except ReadError (List DomainEntry) :=
  read_domainlistE

/-- Model of `read_blacklist_exact` on possibly-incomplete records. -/
def read_blacklist_exactE : List RawDomainJson → Except ReadError (List DomainEntry) :=
  read_domainlistE

/-- Model of `read_whitelist_regex` on possibly-incomplete records. -/
def read_whitelist_regexE : List RawDomainJson → Except ReadError (List DomainEntry) :=
  read_domainlistE

/-- Model of `read_blacklist_regex` on possibly-incomplete records. -/
def read_blacklist_regexE : List RawDomainJson → Except ReadError (List DomainEntry) :=
  read_domainlistE

/-- State of one JSON file inside the extracted archive: absent (`open`
raises), present but not valid JSON (`json.load` raises), or parsed into a
list of records. -/
inductive JsonFile (α : Type) where
  | missing
  | unparsable
  | parsed (records : List α)
  deriving DecidableEq, Repr

/-- Whole-file behaviour of `read_adlist`: `open` then `json.load` then the
comprehension. -/
def readAdlistFile : JsonFile RawAdlistJson → Except ReadError (List AdlistEntry)
  | .missing => .error (.missingFile "adlist.json")
  | .unparsable => .error (.parseError "adlist.json")
  | .parsed recs => read_adlistE recs

/-- Whole-file behaviour of a domain-list reader for the named file. -/
def readDomainFile (name : String) :
    JsonFile RawDomainJson → Except ReadError (List DomainEntry)
  | .missing => .error (.missingFile name)
  | .unparsable => .error (.parseError name)
  | .parsed recs => read_domainlistE recs

/-- The environment `main` runs in: whether `tarfile` extraction succeeds
(the temporary directory is created by `mkdtemp` before extraction is
attempted), the state of the five JSON files, and the HTTP probe. -/
structure Env where
  extractOk : Bool
  adlistFile : JsonFile RawAdlistJson
  whitelist_exact_file : JsonFile RawDomainJson
  blacklist_exact_file : JsonFile RawDomainJson
  whitelist_regex_file : JsonFile RawDomainJson
  blacklist_regex_file : JsonFile RawDomainJson
  probe : String → ProbeOutcome

/-- How one run of `main` ends. -/
inductive RunResult where
  | usageError
  | fatalExtraction
  | fatalRead (e : ReadError)
  | success
  deriving DecidableEq, Repr

/-- Observable outcome of a run: how it ended, whether `mkdtemp` ran, whether
`shutil.rmtree` ran, and the arguments of the `print` calls in order. -/
structure MainOutcome where
  result : RunResult
  tempCreated : Bool
  tempRemoved : Bool
  stdout : List String
  deriving DecidableEq, Repr

/-- The three `print` calls `main` makes for one surviving adlist entry. -/
def entry_lines (e : AdlistEntry) : List String :=
  ["Name: " ++ e.comment, "URL: " ++ normalizeUrl e.address, "\n\n"]

/-- All `print` calls of a successful run, in order. -/
def report_lines (adlist : List AdlistEntry) (rules : String) : List String :=
  "Add each of the following blocklist to the DNS blocklists page:\n\n"
    :: (adlist.map entry_lines).flatten
    ++ ["Copy past this in the Custom filtering rules field:\n\n", rules]

/-- The body of `main`'s `try` block: the five reads, the liveness filter and
the rule builder, stopping at the first raised error. -/
def main_body (env : Env) : Except ReadError (List String) :=
  match readAdlistFile env.adlistFile with
  | .error err => .error err
  | .ok adlist0 =>
    let adlist := filter_working_adlist env.probe adlist0
    match readDomainFile "whitelist.exact.json" env.whitelist_exact_file with
    | .error err => .error err
    | .ok whitelist_exact =>
      match readDomainFile "blacklist.exact.json" env.blacklist_exact_file with
      | .error err => .error err
      | .ok blacklist_exact =>
        match readDomainFile "whitelist.regex.json" env.whitelist_regex_file with
        | .error err => .error err
        | .ok whitelist_regex =>
          match readDomainFile "blacklist.regex.json" env.blacklist_regex_file with
          | .error err => .error err
          | .ok blacklist_regex =>
            let rules := build_custom_filtering_rules
              whitelist_exact blacklist_exact whitelist_regex blacklist_regex
            .ok (report_lines adlist rules)

/-- Model of `main`: usage check, then `unzip_tar_gz` (which runs `mkdtemp` and only
then extracts, outside the `try`/`finally`), then the `try` block whose
`finally` removes the temporary directory.  An extraction failure escapes
before the `try` block is entered, so `shutil.rmtree` does not run there. -/
def main (argv : List String) (env : Env) : MainOutcome :=
  if argv.length ≠ 2 then
    { result := .usageError, tempCreated := false, tempRemoved := false,
      stdout := ["Usage: python3 convert_config.py <teleporter archive path>"] }
  else if env.extractOk = false then
    { result := .fatalExtraction, tempCreated := true, tempRemoved := false,
      stdout := [] }
  else
    match main_body env with
    | .error e =>
      { result := .fatalRead e, tempCreated := true, tempRemoved := true,
        stdout := [] }
    | .ok out =>
      { result := .success, tempCreated := true, tempRemoved := true,
        stdout := out }

/-- Whether a character list contains an occurrence of backslash-slash. -/
def hasBsSlash : List Char → Bool
  | [] => false
  | [_] => false
  | c :: d :: rest =>
    if c = '\\' ∧ d = '/' then true else hasBsSlash (d :: rest)

/-- Join a list of character lists with the given separator between
consecutive pieces. -/
def sepJoin (sep : List Char) : List (List Char) → List Char
  | [] => []
  | [p] => p
  | p :: q :: rest => p ++ sep ++ sepJoin sep (q :: rest)

/-- Key discipline an adlist record must satisfy for the comprehension not to
raise: `enabled` present, and if it is truthy, `address` and `comment`
present as well. -/
def adRecordKeysOk (r : RawAdlistJson) : Bool :=
  match r.enabled with
  | none => false
  | some en => !pyTruthy en || (r.address.isSome && r.comment.isSome)

/-- Key discipline a domain-list record must satisfy for the comprehension
not to raise: `enabled` present, and if it equals 1, `domain` and `comment`
present as well. -/
def domRecordKeysOk (r : RawDomainJson) : Bool :=
  match r.enabled with
  | none => false
  | some en => !pyEqOne en || (r.domain.isSome && r.comment.isSome)

/-- Returns `true` exactly when the computation did not raise. -/
def isOkE {ε α : Type} : Except ε α → Bool
  | .ok _ => true
  | .error _ => false

/-- The string has a line reading `! Whitelist` (its first line) and, later,
a line reading `! Blacklist`. -/
def headerOrder (s : String) : Prop :=
  ∃ mid tail, s = "! Whitelist\n" ++ (mid ++ ("\n! Blacklist\n" ++ tail))

/-- A two-element argument vector, as `sys.argv` for a correct invocation. -/
def argvFixture : List String := ["convert_config.py", "pi-hole-backup.tar.gz"]

/-- A probe for which every request raises a `RequestException`. -/
def probeNone : String → ProbeOutcome := fun _ => .netError

/-- A probe answering 200 for one specific normalized URL. -/
def probeLive : String → ProbeOutcome := fun s =>
  if s = "https://example.com/list.txt" then .status 200 else .netError

/-- An archive whose `adlist.json` is absent and whose other files parse. -/
def envMissingAdlist : Env :=
  { extractOk := true
    adlistFile := .missing
    whitelist_exact_file := .parsed []
    blacklist_exact_file := .parsed []
    whitelist_regex_file := .parsed []
    blacklist_regex_file := .parsed []
    probe := probeNone }

/-- An invocation whose archive cannot be extracted. -/
def envExtractFail : Env :=
  { extractOk := false
    adlistFile := .parsed []
    whitelist_exact_file := .parsed []
    blacklist_exact_file := .parsed []
    whitelist_regex_file := .parsed []
    blacklist_regex_file := .parsed []
    probe := probeNone }

/-- A disabled domain-list record lacking both `domain` and `comment`. -/
def badDomainRecord : RawDomainJson :=
  { domain := none, comment := none, enabled := some (.int 0) }

/-- An adlist entry whose address carries JSON escape artifacts. -/
def escapedEntry : AdlistEntry :=
  { address := "https:\\/\\/example.com\\/list.txt", comment := "my list" }

theorem foldl_append_sconcat (f : DomainEntry → String) (l : List DomainEntry) :
    ∀ init : String,
      l.foldl (fun acc e => acc ++ f e) init = init ++ sconcat (l.map f) := by
  induction l with
  | nil => intro init; simp [sconcat, String.append_empty]
  | cons e rest ih =>
    intro init
    simp only [List.foldl_cons, List.map_cons, sconcat, ih, String.append_assoc]

theorem str_empty_append (s : String) : "" ++ s = s := by
  cases s
  rfl

theorem build_eq_rulesBlockTwoBlank
    (we be wr br : List DomainEntry) :
    build_custom_filtering_rules we be wr br = rulesBlockTwoBlank we be wr br := by
  simp only [build_custom_filtering_rules, rulesBlockTwoBlank,
    foldl_append_sconcat, str_empty_append, String.append_assoc]

theorem sep_shift (x : String) :
    "\n\n" ++ ("! Blacklist\n" ++ x) = "\n" ++ ("\n! Blacklist\n" ++ x) := by
  rw [← String.append_assoc, ← String.append_assoc]
  rfl

/-- C10: on four empty inputs, `build_custom_filtering_rules` still returns
the fixed skeleton, exactly the string with the whitelist header, the blank
separation, and the blacklist header. -/
theorem c10_empty_inputs_skeleton :
    build_custom_filtering_rules [] [] [] [] = "! Whitelist\n\n\n! Blacklist\n" := by
  rfl

/-- C1 fails as stated: on four empty inputs the block the claim describes
ends the whitelist section with a single blank line, but the code emits two
blank lines (the separator `"\n\n"` follows a newline-terminated line). -/
theorem c1_single_blank_counterexample :
    build_custom_filtering_rules [] [] [] [] ≠ rulesBlockSingleBlank [] [] [] []
    ∧ rulesBlockSingleBlank [] [] [] [] = "! Whitelist\n\n! Blacklist\n"
    ∧ build_custom_filtering_rules [] [] [] [] = "! Whitelist\n\n\n! Blacklist\n" := by
  refine ⟨?_, rfl, rfl⟩
  decide

/-- C1 (amended): for every four input sequences,
`build_custom_filtering_rules` returns exactly the §4.4 fixed-structure
block with the whitelist header, the two lines per whitelist-exact then
whitelist-regex entry, TWO blank lines, the blacklist header, and the two
lines per blacklist-exact then blacklist-regex entry, in input order. -/
theorem c1_rules_block_structure
    (we be wr br : List DomainEntry) :
    build_custom_filtering_rules we be wr br = rulesBlockTwoBlank we be wr br :=
  build_eq_rulesBlockTwoBlank we be wr br

/-- C8: the rule builder is deterministic (identical inputs give
byte-identical output), and its output always has the line `! Whitelist`
(its first line) before the line `! Blacklist`. -/
theorem c8_deterministic_and_ordered
    (we be wr br we2 be2 wr2 br2 : List DomainEntry)
    (h1 : we = we2) (h2 : be = be2) (h3 : wr = wr2) (h4 : br = br2) :
    build_custom_filtering_rules we be wr br
      = build_custom_filtering_rules we2 be2 wr2 br2
    ∧ headerOrder (build_custom_filtering_rules we be wr br) := by
  subst h1
  subst h2
  subst h3
  subst h4
  refine ⟨rfl, ?_⟩
  refine ⟨sconcat (we.map wlExactRule) ++ (sconcat (wr.map wlRegexRule) ++ "\n"),
    sconcat (be.map blExactRule) ++ sconcat (br.map blRegexRule), ?_⟩
  rw [build_eq_rulesBlockTwoBlank]
  simp only [rulesBlockTwoBlank, String.append_assoc]
  rw [sep_shift]

/-- C8 witness: the statement instantiated at concrete (empty) inputs. -/
theorem c8_deterministic_and_ordered_witness :
    build_custom_filtering_rules [] [] [] []
      = build_custom_filtering_rules [] [] [] []
    ∧ headerOrder (build_custom_filtering_rules [] [] [] []) :=
  c8_deterministic_and_ordered [] [] [] [] [] [] [] [] rfl rfl rfl rfl

theorem read_adlist_eq_filter_map (l : List RawAdlistRecord) :
    read_adlist l = (l.filter fun r => pyTruthy r.enabled).map
      (fun r => { address := r.address, comment := r.comment }) := by
  induction l with
  | nil => rfl
  | cons e rest ih =>
    by_cases h : pyTruthy e.enabled
    · simp [read_adlist, List.filter_cons, h, ih]
    · simp [read_adlist, List.filter_cons, h, ih]

theorem read_domainlist_eq_filter_map (l : List RawDomainRecord) :
    read_domainlist l = (l.filter fun r => pyEqOne r.enabled).map
      (fun r => { domain := r.domain, comment := r.comment }) := by
  induction l with
  | nil => rfl
  | cons e rest ih =>
    by_cases h : pyEqOne e.enabled
    · simp [read_domainlist, List.filter_cons, h, ih]
    · simp [read_domainlist, List.filter_cons, h, ih]

/-- C2: `read_adlist` keeps exactly the records with truthy `enabled`, and
each of the four domain-list readers keeps exactly the records whose
`enabled` satisfies Python's `== 1`; every kept record is projected to
exactly its two relevant fields, verbatim and in source order. -/
theorem c2_readers_keep_enabled
    (l : List RawAdlistRecord) (m1 m2 m3 m4 : List RawDomainRecord) :
    read_adlist l = (l.filter fun r => pyTruthy r.enabled).map
      (fun r => { address := r.address, comment := r.comment })
    ∧ read_whitelist_exact m1 = (m1.filter fun r => pyEqOne r.enabled).map
      (fun r => { domain := r.domain, comment := r.comment })
    ∧ read_blacklist_exact m2 = (m2.filter fun r => pyEqOne r.enabled).map
      (fun r => { domain := r.domain, comment := r.comment })
    ∧ read_whitelist_regex m3 = (m3.filter fun r => pyEqOne r.enabled).map
      (fun r => { domain := r.domain, comment := r.comment })
    ∧ read_blacklist_regex m4 = (m4.filter fun r => pyEqOne r.enabled).map
      (fun r => { domain := r.domain, comment := r.comment }) :=
  ⟨read_adlist_eq_filter_map l, read_domainlist_eq_filter_map m1,
    read_domainlist_eq_filter_map m2, read_domainlist_eq_filter_map m3,
    read_domainlist_eq_filter_map m4⟩

theorem test_url_true_iff (probe : String → ProbeOutcome) (url : String) :
    test_url probe url = true ↔ probe (normalizeUrl url) = .status 200 := by
  unfold test_url
  cases h : probe (normalizeUrl url) with
  | status code => simp
  | netError => simp

theorem filter_working_eq_filter (probe : String → ProbeOutcome)
    (l : List AdlistEntry) :
    filter_working_adlist probe l = l.filter fun e => test_url probe e.address := by
  induction l with
  | nil => rfl
  | cons e rest ih =>
    by_cases h : test_url probe e.address
    · simp [filter_working_adlist, List.filter_cons, h, ih]
    · simp [filter_working_adlist, List.filter_cons, h, ih]

/-- C3: with the HTTP probe an oracle, `filter_working_adlist` retains an
entry exactly when probing its normalized address yields status 200 (any
other status or a network error excludes it, without failing), and the
output is the order-preserving subsequence of survivors. -/
theorem c3_liveness_filter
    (probe : String → ProbeOutcome) (l : List AdlistEntry) :
    (∀ e, e ∈ filter_working_adlist probe l
        ↔ e ∈ l ∧ probe (normalizeUrl e.address) = .status 200)
    ∧ List.Sublist (filter_working_adlist probe l) l := by
  constructor
  · intro e
    rw [filter_working_eq_filter, List.mem_filter, test_url_true_iff]
  · rw [filter_working_eq_filter]
    exact List.filter_sublist l

/-- C9: the liveness filter never modifies entries: its output is a
subsequence of the input, so every survivor is an input element unchanged
(in particular an escaped address stays escaped; normalization happens only
on the probe's copy of the URL). -/
theorem c9_filter_frame (probe : String → ProbeOutcome) (l : List AdlistEntry) :
    List.Sublist (filter_working_adlist probe l) l
    ∧ ∀ e, e ∈ filter_working_adlist probe l → e ∈ l := by
  have hs : List.Sublist (filter_working_adlist probe l) l := by
    rw [filter_working_eq_filter]
    exact List.filter_sublist l
  exact ⟨hs, fun e he => hs.subset he⟩

/-- C9 witness: a surviving entry whose address carries the two-character
escape keeps its escaped form in the output. -/
theorem c9_filter_frame_witness :
    escapedEntry ∈ filter_working_adlist probeLive [escapedEntry]
    ∧ escapedEntry ∈ [escapedEntry] :=
  have hin : escapedEntry ∈ filter_working_adlist probeLive [escapedEntry] := by
    decide
  ⟨hin, (c9_filter_frame probeLive [escapedEntry]).2 escapedEntry hin⟩

/-- C5 fails as stated: on a two-argument invocation whose archive cannot be
extracted, the run ends with the extraction error uncaught, the temporary
directory has been created by `mkdtemp` — and it is NOT removed, because
`unzip_tar_gz` runs before `main`'s `try`/`finally` is entered. -/
theorem c5_extraction_failure_counterexample :
    (main argvFixture envExtractFail).result = RunResult.fatalExtraction
    ∧ (main argvFixture envExtractFail).tempCreated = true
    ∧ (main argvFixture envExtractFail).tempRemoved = false :=
  ⟨rfl, rfl, rfl⟩

/-- C5 (amended): if extraction fails after the temporary directory has been
created, the error propagates uncaught and the temporary directory is NOT
removed before the program terminates — the cleanup only guards the phase
after extraction succeeded. -/
theorem c5_extraction_failure_leaks_tempdir
    (argv : List String) (env : Env)
    (h1 : argv.length = 2) (h2 : env.extractOk = false) :
    (main argv env).result = RunResult.fatalExtraction
    ∧ (main argv env).tempCreated = true
    ∧ (main argv env).tempRemoved = false := by
  simp [main, h1, h2]

/-- C5 witness: the amended statement instantiated at a concrete run. -/
theorem c5_extraction_failure_leaks_tempdir_witness :
    (main argvFixture envExtractFail).result = RunResult.fatalExtraction
    ∧ (main argvFixture envExtractFail).tempCreated = true
    ∧ (main argvFixture envExtractFail).tempRemoved = false
    ∧ argvFixture.length = 2 ∧ envExtractFail.extractOk = false :=
  have h := c5_extraction_failure_leaks_tempdir argvFixture envExtractFail rfl rfl
  ⟨h.1, h.2.1, h.2.2, rfl, rfl⟩

/-- C6: if the extracted archive lacks `adlist.json`, the run fails with the
fatal missing-file error, prints nothing, and the temporary directory is
removed regardless (the `finally` clause runs). -/
theorem c6_missing_adlist_fatal
    (argv : List String) (env : Env)
    (h1 : argv.length = 2) (h2 : env.extractOk = true)
    (h3 : env.adlistFile = .missing) :
    (main argv env).result = RunResult.fatalRead (.missingFile "adlist.json")
    ∧ (main argv env).stdout = []
    ∧ (main argv env).tempRemoved = true := by
  simp [main, main_body, h1, h2, h3, readAdlistFile]

/-- C6 witness: the statement instantiated at a concrete archive missing its
`adlist.json`. -/
theorem c6_missing_adlist_fatal_witness :
    (main argvFixture envMissingAdlist).result
      = RunResult.fatalRead (.missingFile "adlist.json")
    ∧ (main argvFixture envMissingAdlist).stdout = []
    ∧ (main argvFixture envMissingAdlist).tempRemoved = true :=
  c6_missing_adlist_fatal argvFixture envMissingAdlist rfl rfl rfl

/-- C7 fails as stated: a record whose `enabled` filter rejects it is skipped
before its other keys are read, so a disabled record lacking both `domain`
and `comment` raises nothing and the reader returns the empty projection. -/
theorem c7_disabled_missing_keys_counterexample :
    badDomainRecord.domain = none
    ∧ badDomainRecord.comment = none
    ∧ read_whitelist_exactE [badDomainRecord] = Except.ok [] :=
  ⟨rfl, rfl, rfl⟩

theorem read_adlistE_ok_iff (l : List RawAdlistJson) :
    isOkE (read_adlistE l) = true ↔ ∀ r ∈ l, adRecordKeysOk r = true := by
  induction l with
  | nil => simp [read_adlistE, isOkE]
  | cons e rest ih =>
    cases he : e.enabled with
    | none =>
      simp [read_adlistE, getKey, he, isOkE, adRecordKeysOk]
    | some en =>
      by_cases ht : pyTruthy en
      · cases ha : e.address with
        | none =>
          simp [read_adlistE, getKey, he, ha, ht, isOkE, adRecordKeysOk]
        | some a =>
          cases hc : e.comment with
          | none =>
            simp [read_adlistE, getKey, he, ha, hc, ht, isOkE, adRecordKeysOk]
          | some c =>
            cases hres : read_adlistE rest with
            | error err =>
              simp [read_adlistE, getKey, he, ha, hc, ht, hres, isOkE,
                adRecordKeysOk] at ih ⊢
              exact ih
            | ok tail =>
              simp [read_adlistE, getKey, he, ha, hc, ht, hres, isOkE,
                adRecordKeysOk] at ih ⊢
              exact ih
      · have hstep : read_adlistE (e :: rest) = read_adlistE rest := by
          simp [read_adlistE, getKey, he, ht]
        have hrec : adRecordKeysOk e = true := by
          simp [adRecordKeysOk, he, ht]
        rw [hstep, ih]
        simp [List.forall_mem_cons, hrec]

theorem read_domainlistE_ok_iff (l : List RawDomainJson) :
    isOkE (read_domainlistE l) = true ↔ ∀ r ∈ l, domRecordKeysOk r = true := by
  induction l with
  | nil => simp [read_domainlistE, isOkE]
  | cons e rest ih =>
    cases he : e.enabled with
    | none =>
      simp [read_domainlistE, getKey, he, isOkE, domRecordKeysOk]
    | some en =>
      by_cases ht : pyEqOne en
      · cases hd : e.domain with
        | none =>
          simp [read_domainlistE, getKey, he, hd, ht, isOkE, domRecordKeysOk]
        | some d =>
          cases hc : e.comment with
          | none =>
            simp [read_domainlistE, getKey, he, hd, hc, ht, isOkE, domRecordKeysOk]
          | some c =>
            cases hres : read_domainlistE rest with
            | error err =>
              simp [read_domainlistE, getKey, he, hd, hc, ht, hres, isOkE,
                domRecordKeysOk] at ih ⊢
              exact ih
            | ok tail =>
              simp [read_domainlistE, getKey, he, hd, hc, ht, hres, isOkE,
                domRecordKeysOk] at ih ⊢
              exact ih
      · have hstep : read_domainlistE (e :: rest) = read_domainlistE rest := by
          simp [read_domainlistE, getKey, he, ht]
        have hrec : domRecordKeysOk e = true := by
          simp [domRecordKeysOk, he, ht]
        rw [hstep, ih]
        simp [List.forall_mem_cons, hrec]

/-- C7 (amended): a reader raises on a missing or unparsable file, and on
record contents it raises exactly when some record lacks `enabled`, or some
record passing the `enabled` filter lacks `address`/`domain` or `comment`;
a record rejected by the filter is skipped before its other keys are read. -/
theorem c7_reader_error_characterization
    (l : List RawAdlistJson) (m : List RawDomainJson) (name : String) :
    isOkE (readAdlistFile .missing) = false
    ∧ isOkE (readAdlistFile .unparsable) = false
    ∧ isOkE (readDomainFile name .missing) = false
    ∧ isOkE (readDomainFile name .unparsable) = false
    ∧ (isOkE (read_adlistE l) = true ↔ ∀ r ∈ l, adRecordKeysOk r = true)
    ∧ (isOkE (read_whitelist_exactE m) = true ↔ ∀ r ∈ m, domRecordKeysOk r = true) :=
  ⟨rfl, rfl, rfl, rfl, read_adlistE_ok_iff l, read_domainlistE_ok_iff m⟩

theorem replaceBsSlash_append : ∀ p rest : List Char,
    hasBsSlash p = false → rest.head? ≠ some '/' →
    replaceBsSlash (p ++ rest) = p ++ replaceBsSlash rest := by
  intro p
  induction p with
  | nil =>
    intro rest _ _
    rfl
  | cons c p ih =>
    intro rest hp hr
    cases p with
    | nil =>
      cases rest with
      | nil => rfl
      | cons d rest2 =>
        have hd : ¬ d = '/' := by
          intro h
          exact hr (by simp [h])
        simp only [List.cons_append, List.nil_append, replaceBsSlash]
        rw [if_neg (fun h => hd h.2)]
    | cons d p2 =>
      simp only [hasBsSlash] at hp
      by_cases hcd : c = '\\' ∧ d = '/'
      · rw [if_pos hcd] at hp
        exact absurd hp (by simp)
      · rw [if_neg hcd] at hp
        simp only [List.cons_append, replaceBsSlash]
        rw [if_neg hcd]
        have h2 := ih rest hp hr
        simp only [List.cons_append] at h2
        simp only [List.append_eq]
        rw [h2]

theorem replaceBsSlash_pair (xs : List Char) :
    replaceBsSlash ('\\' :: '/' :: xs) = '/' :: replaceBsSlash xs := by
  simp [replaceBsSlash]

theorem replaceBsSlash_sepJoin : ∀ parts : List (List Char),
    (∀ p ∈ parts, hasBsSlash p = false) →
    replaceBsSlash (sepJoin ['\\', '/'] parts) = sepJoin ['/'] parts := by
  intro parts
  induction parts with
  | nil =>
    intro _
    rfl
  | cons p parts ih =>
    intro h
    cases parts with
    | nil =>
      have h0 := replaceBsSlash_append p [] (h p (by simp)) (by simp)
      simp only [List.append_nil, replaceBsSlash] at h0
      simpa [sepJoin] using h0
    | cons q parts2 =>
      have hp := h p (by simp)
      have hrest : ∀ r ∈ q :: parts2, hasBsSlash r = false := by
        intro r hr
        exact h r (List.mem_cons_of_mem p hr)
      have hhead : ('\\' :: '/' :: sepJoin ['\\', '/'] (q :: parts2)).head? ≠ some '/' := by
        simp only [List.head?_cons]
        decide
      simp only [sepJoin, List.append_assoc, List.cons_append, List.nil_append]
      rw [replaceBsSlash_append p ('\\' :: '/' :: sepJoin ['\\', '/'] (q :: parts2)) hp hhead]
      rw [replaceBsSlash_pair, ih hrest]

/-- C4: the URL normalization replaces every occurrence of the two-character
sequence backslash-slash with a single slash and changes nothing else: it
maps the spec's example to its unescaped form, and on any string assembled
from occurrence-free parts joined by the escape sequence it returns exactly
the parts joined by single slashes. -/
theorem c4_url_normalization :
    normalizeUrl "https:\\/\\/example.com\\/list.txt" = "https://example.com/list.txt"
    ∧ ∀ parts : List (List Char), (∀ p ∈ parts, hasBsSlash p = false) →
        normalizeUrl (String.mk (sepJoin ['\\', '/'] parts))
          = String.mk (sepJoin ['/'] parts) := by
  constructor
  · decide
  · intro parts h
    show String.mk (replaceBsSlash (sepJoin ['\\', '/'] parts))
      = String.mk (sepJoin ['/'] parts)
    rw [replaceBsSlash_sepJoin parts h]

/-- C4 witness: the normalization statement instantiated at concrete
occurrence-free parts. -/
theorem c4_url_normalization_witness :
    (∀ p ∈ [['a'], ['b', 'c']], hasBsSlash p = false)
    ∧ normalizeUrl (String.mk (sepJoin ['\\', '/'] [['a'], ['b', 'c']]))
        = String.mk (sepJoin ['/'] [['a'], ['b', 'c']]) :=
  ⟨by decide, c4_url_normalization.2 [['a'], ['b', 'c']] (by decide)⟩

end PiholeConvert
